import Mathlib

/-!
Shallow embedding of the takkun terminal text editor (Rust) in Lean 4.

The embedding follows the source files under `src/`:
  * `src/style.rs`       — `Style`, `Decoration`, `styled`
  * `src/document.rs`    — `Cell`, `Row`, `Cursor`, `Document` and the edit
    operations, `Row::split` (soft wrap), `Row::match_indices`,
    `Document::find_next`, `Document::save`, `Document::open`,
    `Document::cursor_display_x`
  * `src/ui/text_area.rs`, `src/ui/tabs.rs`, `src/ui/find.rs`,
    `src/ui/file_chooser.rs`, `src/ui/status.rs` — the component stack
  * `src/terminal.rs`    — the single-byte part of the key decoder

Modelling conventions:
  * Rust `usize` values are Lean `Nat`.  Where the source can underflow a
    `usize` subtraction (release builds wrap modulo 2^64, debug builds
    panic) the wrap is written out explicitly with `USIZE = 2^64`.
  * A Rust panic (failed `assert!`, index out of bounds, `% 0`) is
    modelled by `Option`/`Outcome.crash` at the operations where a claim
    depends on it; pure index accesses that are guarded by the cursor
    invariant are modelled with the total `List.getD`/`List.take`/
    `List.drop`/`List.set` operations, which agree with the source
    whenever the index is in range.
  * Grapheme segmentation and display width come from external crates
    (`unicode_segmentation`, `unicode_width`), which the design treats as
    external collaborators.  `graphemes` and `graphemeWidth` below are
    modelled from the spec: segmentation splits into characters (exact for
    the ASCII strings reachable here, since `Document::insert` asserts a
    one-byte argument), and width is 1 for ASCII/narrow graphemes, 2 for
    wide ones; the TAB cluster is special-cased to width 4 in `cells`,
    exactly as in the source.
  * File-system effects are made explicit: `Document.save` takes the
    current on-disk content and an optional index of the first failing
    write operation (0 = `File::create`, n ≥ 1 = the n-th `write_all`);
    `Document.openF` takes the read outcome.  The component stack takes a
    `World` bundling these outcomes.
-/

namespace Takkun

/-- `style.rs`: text decorations. -/
inductive Decoration where
  | Italic : Decoration
  | Underline : Decoration
deriving DecidableEq, Repr

/-- `style.rs`: a 256-color foreground/background pair plus decorations. -/
structure Style where
  foreground : Nat
  background : Nat
  decoration : List Decoration
deriving DecidableEq, Repr

/-- `style.rs::decoration`: escape sequences for the decorations. -/
def decorationStr (style : Style) : String :=
  style.decoration.foldl
    (fun acc d =>
      match d with
      | Decoration.Italic => acc ++ "\x1b[3m"
      | Decoration.Underline => acc ++ "\x1b[4m")
    ""

/-- `style.rs::styled`: SGR reset, decorations, 256-color fg/bg, then the text. -/
def styled (style : Style) (text : String) : String :=
  "\x1b[0m" ++ decorationStr style ++ "\x1b[38;5;" ++ toString style.foreground
    ++ "m" ++ "\x1b[48;5;" ++ toString style.background ++ "m" ++ text

/-- The default content style `{foreground: 7, background: 234}` used
throughout `document.rs`. -/
def defaultStyle : Style := ⟨7, 234, []⟩

/-- `document.rs`: the logical cursor, a cell index `x` within row `y`. -/
structure Cursor where
  x : Nat
  y : Nat
deriving DecidableEq, Repr

/-- `document.rs`: one grapheme cluster with its display width and style. -/
structure Cell where
  grapheme : String
  width : Nat
  style : Style
deriving DecidableEq, Repr

/-- `document.rs`: a row is an ordered sequence of cells. -/
structure Row where
  cells : List Cell
deriving DecidableEq, Repr

/-- Modelled from the spec: grapheme segmentation (the external
`unicode_segmentation` crate is not part of this repository).  Splitting
into characters is exact for the single-code-point strings reachable
through `Document::insert`, which asserts a one-byte argument. -/
def graphemes (s : String) : List String :=
  s.toList.map Char.toString

/-- Modelled from the spec: display width of a grapheme (the external
`unicode_width` crate is not part of this repository): 1 for ASCII/narrow
graphemes, 2 for wide ones. -/
def graphemeWidth (g : String) : Nat :=
  if g.toList.all (fun c => c.toNat ≤ 0x7E) then 1 else 2

/-- `document.rs::cells` applied to a single grapheme cluster: the TAB
cluster becomes a width-4 cell, anything else gets its display width. -/
def cellOfGrapheme (g : String) : Cell :=
  if g = "\t" then ⟨g, 4, defaultStyle⟩ else ⟨g, graphemeWidth g, defaultStyle⟩

/-- `document.rs::cells`: parse a text line into a `Row`, one cell per
grapheme cluster. -/
def cells (line : String) : Row :=
  ⟨(graphemes line).map cellOfGrapheme⟩

/-- `document.rs::cells` on a pre-segmented line (used to model
`Document::open`, whose input was already split into grapheme clusters by
the external segmentation). -/
def rowOfGraphemes (gs : List String) : Row :=
  ⟨gs.map cellOfGrapheme⟩

namespace Row

/-- `Row::new`. -/
def new : Row := ⟨[]⟩

/-- `Row::insert_str`: splice the cells of `s` at `position`
(`Vec::splice(position..position, cells(s).cells)`). -/
def insert_str (r : Row) (position : Nat) (s : String) : Row :=
  ⟨r.cells.take position ++ (Takkun.cells s).cells ++ r.cells.drop position⟩

/-- `Row::split_at`: cells `[0, position)` and `[position, len)`. -/
def split_at (r : Row) (position : Nat) : Row × Row :=
  (⟨r.cells.take position⟩, ⟨r.cells.drop position⟩)

/-- `Row::append`. -/
def append (r : Row) (other : Row) : Row :=
  ⟨r.cells ++ other.cells⟩

/-- `Row::remove`: drop the cell at `position`. -/
def remove (r : Row) (position : Nat) : Row :=
  ⟨r.cells.eraseIdx position⟩

/-- `Row::as_string`: concatenation of all grapheme strings. -/
def as_string (r : Row) : String :=
  r.cells.foldl (fun line c => line ++ c.grapheme) ""

/-- `Row::len`: number of cells. -/
def len (r : Row) : Nat := r.cells.length

end Row

/-- Sum of the display widths of a list of cells. -/
def cellsWidth (l : List Cell) : Nat :=
  (l.map Cell.width).sum

/-- The loop of `Row::split` (`document.rs` lines 85–106), string form.
State: the cells still to process, the in-progress `line`, its tracked
`width`, the current `style`, and the accumulated `display_lines`.  Each
cell's grapheme is appended to the line *before* the width check; when
`width + cell.width < max_width` fails, the line (which already contains
the cell) is sealed and a fresh empty line is begun. -/
def splitGo (cs : List Cell) (line : String) (width : Nat) (style : Style)
    (maxWidth : Nat) (endPad : String) (acc : List String) : List String :=
  match cs with
  | [] => acc ++ [if width < maxWidth then line ++ endPad else line]
  | c :: rest =>
    let line' := if c.style ≠ style then line ++ styled c.style c.grapheme
                 else line ++ c.grapheme
    let style' := if c.style ≠ style then c.style else style
    if width + c.width < maxWidth then
      splitGo rest line' (width + c.width) style' maxWidth endPad acc
    else
      splitGo rest "" 0 style' maxWidth endPad (acc ++ [line'])

/-- `Row::split` (the soft-wrap routine, called `soft_wrap` in the spec):
break a row into display lines of at most `max_width` accumulated width,
prefixing the initial style and appending `end` to a final line whose
width is still below `max_width`. -/
def Row.split (r : Row) (maxWidth : Nat) (endPad : String) : List String :=
  splitGo r.cells (styled defaultStyle "") 0 defaultStyle maxWidth endPad []

/-- The same loop as `splitGo`, recording the cells of each produced line
instead of the styled string.  This is the width-accounting view of
`Row::split`: `length_splitGo_eq_splitCellsGo` below proves that it seals
lines at exactly the same points. -/
def splitCellsGo (cs : List Cell) (line : List Cell) (width : Nat)
    (maxWidth : Nat) (acc : List (List Cell)) : List (List Cell) :=
  match cs with
  | [] => acc ++ [line]
  | c :: rest =>
    if width + c.width < maxWidth then
      splitCellsGo rest (line ++ [c]) (width + c.width) maxWidth acc
    else
      splitCellsGo rest [] 0 maxWidth (acc ++ [line ++ [c]])

/-- `Row::split`, cells-per-line view. -/
def Row.splitCells (r : Row) (maxWidth : Nat) : List (List Cell) :=
  splitCellsGo r.cells [] 0 maxWidth []

/-- `Row::match_indices`: if the pattern's byte length exceeds the number
of cells, no match; otherwise for each `i` in `0..(len − |graphemes|)`
(an exclusive upper bound, as in the source) compare the pattern's
graphemes against the cell graphemes starting at `i`. -/
def Row.match_indices (r : Row) (pattern : String) : List Nat :=
  if pattern.utf8ByteSize > r.cells.length then []
  else
    let pg := graphemes pattern
    (List.range (r.cells.length - pg.length)).filter
      (fun i =>
        (List.range pg.length).all
          (fun j => (r.cells.getD (i + j) ⟨"", 0, defaultStyle⟩).grapheme
            == pg.getD j ""))

/-- `document.rs`: the edit buffer — rows, cursor, optional filename. -/
structure Document where
  rows : List Row
  cursor : Cursor
  filename : Option String
deriving DecidableEq, Repr

/-- `2^64`: Rust `usize` arithmetic wraps modulo this in release builds. -/
def USIZE : Nat := 18446744073709551616

namespace Document

/-- `Document::blank`. -/
def blank : Document := ⟨[], ⟨0, 0⟩, none⟩

/-- `Document::name`. -/
def name (d : Document) : String :=
  d.filename.getD "New File"

/-- `Document::on_first_line`. -/
def on_first_line (d : Document) : Bool :=
  d.cursor.y == 0

/-- `Document::on_last_line`: `self.cursor.y == self.rows.len() - 1`.
When `rows` is empty the subtraction underflows: a debug build panics and
a release build wraps to `2^64 − 1`; the wrap (release semantics) is
modelled here. -/
def on_last_line (d : Document) : Bool :=
  d.cursor.y == (d.rows.length + (USIZE - 1)) % USIZE

/-- `Document::on_first_char`. -/
def on_first_char (d : Document) : Bool :=
  d.cursor.x == 0

/-- `Document::current_line_len`: 0 for an empty document, else the length
of the current row (the source indexes `rows[y]`, in range under the
cursor invariant). -/
def current_line_len (d : Document) : Nat :=
  if d.rows.length = 0 then 0 else (d.rows.getD d.cursor.y ⟨[]⟩).len

/-- `Document::on_last_char`. -/
def on_last_char (d : Document) : Bool :=
  d.cursor.x == d.current_line_len

/-- `Document::insert`: `assert!(c.len() == 1)` (UTF-8 byte length), then
create a row if there are none, splice `cells(c)` at the cursor and move
right.  `none` models a panic: a failed assertion, or the
`self.rows[self.cursor.y]` index being out of bounds. -/
def insert (c : String) (d : Document) : Option Document :=
  if c.utf8ByteSize = 1 then
    let rows := if d.rows.length = 0 then d.rows ++ [Row.new] else d.rows
    if d.cursor.y < rows.length then
      some { d with
        rows := rows.set d.cursor.y
          ((rows.getD d.cursor.y ⟨[]⟩).insert_str d.cursor.x c),
        cursor := ⟨d.cursor.x + 1, d.cursor.y⟩ }
    else none
  else none

/-- `Document::insert_line`: no-op when empty, else split the current row
at the cursor, replace it by the two halves and move to the start of the
second. -/
def insert_line (d : Document) : Document :=
  if d.rows.length = 0 then d
  else
    let row := d.rows.getD d.cursor.y ⟨[]⟩
    let first := (row.split_at d.cursor.x).1
    let last := (row.split_at d.cursor.x).2
    { d with
      rows := d.rows.take d.cursor.y ++ [first, last]
        ++ d.rows.drop (d.cursor.y + 1),
      cursor := ⟨0, d.cursor.y + 1⟩ }

/-- `Document::delete_prev`: at the start of a non-first row, merge the
row into its predecessor; otherwise remove the cell before the cursor. -/
def delete_prev (d : Document) : Document :=
  if d.on_first_char ∧ ¬ d.on_first_line then
    let prev := d.rows.getD d.cursor.y ⟨[]⟩
    let rows := d.rows.eraseIdx d.cursor.y
    let y := d.cursor.y - 1
    let x := (rows.getD y ⟨[]⟩).len
    { d with
      rows := rows.set y ((rows.getD y ⟨[]⟩).append prev),
      cursor := ⟨x, y⟩ }
  else if ¬ d.on_first_char then
    { d with
      rows := d.rows.set d.cursor.y
        ((d.rows.getD d.cursor.y ⟨[]⟩).remove (d.cursor.x - 1)),
      cursor := ⟨d.cursor.x - 1, d.cursor.y⟩ }
  else d

/-- `Document::start_of_line`. -/
def start_of_line (d : Document) : Document :=
  { d with cursor := ⟨0, d.cursor.y⟩ }

/-- `Document::end_of_line`. -/
def end_of_line (d : Document) : Document :=
  { d with cursor := ⟨d.current_line_len, d.cursor.y⟩ }

/-- `Document::up`. -/
def up (d : Document) : Document :=
  if d.on_first_line then d.start_of_line
  else
    let d' := { d with cursor := ⟨d.cursor.x, d.cursor.y - 1⟩ }
    { d' with cursor := ⟨min d'.cursor.x d'.current_line_len, d'.cursor.y⟩ }

/-- `Document::down`. -/
def down (d : Document) : Document :=
  if d.on_last_line then d.end_of_line
  else
    let d' := { d with cursor := ⟨d.cursor.x, d.cursor.y + 1⟩ }
    { d' with cursor := ⟨min d'.cursor.x d'.current_line_len, d'.cursor.y⟩ }

/-- `Document::left`. -/
def left (d : Document) : Document :=
  if d.on_first_char ∧ ¬ d.on_first_line then
    { d with cursor := ⟨(d.rows.getD (d.cursor.y - 1) ⟨[]⟩).len,
        d.cursor.y - 1⟩ }
  else if ¬ d.on_first_char then
    { d with cursor := ⟨d.cursor.x - 1, d.cursor.y⟩ }
  else d

/-- `Document::right`. -/
def right (d : Document) : Document :=
  if d.rows.length = 0 then d
  else if d.on_last_char ∧ ¬ d.on_last_line then
    { d with cursor := ⟨0, d.cursor.y + 1⟩ }
  else if ¬ d.on_last_char then
    { d with cursor := ⟨d.cursor.x + 1, d.cursor.y⟩ }
  else d

/-- `Document::delete_next`: no-op when empty or at the very end,
otherwise `right()` then `delete_prev()`. -/
def delete_next (d : Document) : Document :=
  if d.rows.length = 0 then d
  else if ¬ (d.on_last_line ∧ d.on_last_char) then d.right.delete_prev
  else d

/-- `Document::tab`: four `insert(" ")` calls. -/
def tab (d : Document) : Option Document :=
  (insert " " d).bind (insert " ") |>.bind (insert " ") |>.bind (insert " ")

/-- `Document::set_filename`. -/
def set_filename (d : Document) (filename : String) : Document :=
  { d with filename := some filename }

/-- `Document::find_next`: collect `(col, row)` matches over all rows in
row-major order, pick the first strictly after the cursor (same row with a
larger column, or a later row), defaulting to the first match overall;
no-op when there are no matches. -/
def find_next (d : Document) (text : String) : Document :=
  let ms :=
    (List.range d.rows.length).flatMap
      (fun i => ((d.rows.getD i ⟨[]⟩).match_indices text).map (fun m => (m, i)))
  if h : 0 < ms.length then
    let first := ms.get ⟨0, h⟩
    let next :=
      (ms.find?
        (fun m => (m.2 == d.cursor.y ∧ m.1 > d.cursor.x) ∨ m.2 > d.cursor.y)).getD
        first
    { d with cursor := ⟨next.1, next.2⟩ }
  else d

/-- `Document::cursor_display_x`: sum of the widths of the cells before
the cursor in the current row. -/
def cursor_display_x (d : Document) : Nat :=
  cellsWidth ((d.rows.getD d.cursor.y ⟨[]⟩).cells.take d.cursor.x)

end Document

/-- The cursor invariant of the spec: `x = y = 0` on an empty document,
otherwise `y < rows.len()` and `x ≤ rows[y].len()`. -/
def DocInv (d : Document) : Prop :=
  (d.rows = [] → d.cursor.x = 0 ∧ d.cursor.y = 0) ∧
  (d.rows ≠ [] → d.cursor.y < d.rows.length ∧
    d.cursor.x ≤ (d.rows.getD d.cursor.y ⟨[]⟩).len)

instance (d : Document) : Decidable (DocInv d) := by
  unfold DocInv; infer_instance

/-- The byte payloads `Document::save` hands to `write_all`, in order:
for each row its `as_string()` bytes, then a newline. -/
def saveWrites (d : Document) : List String :=
  d.rows.flatMap (fun r => [r.as_string, "\n"])

/-- The write loop of `Document::save`: `ws` are the pending `write_all`
payloads, `content` what has reached the file so far, `opIdx` the index of
the next write operation, and `failAt` the index of the first operation
the OS fails (`none` = everything succeeds).  A failing write returns the
error as a value, leaving the partial content on disk. -/
def writeAll (ws : List String) (content : String) (opIdx : Nat)
    (failAt : Option Nat) : Except String Unit × String :=
  match ws with
  | [] => (Except.ok (), content)
  | w :: rest =>
    if failAt = some opIdx then (Except.error "io", content)
    else writeAll rest (content ++ w) (opIdx + 1) failAt

/-- `Document::save` over an explicit file system: `disk` is the current
content of the file named by `filename` (`none` = absent).  Operation 0 is
`File::create`, which truncates the file; operations 1, 2, … are the
`write_all` calls of the loop.  `failAt` injects an I/O error at the given
operation.  Without a filename nothing is written. -/
def Document.save (d : Document) (disk : Option String) (failAt : Option Nat) :
    Except String Unit × Option String :=
  match d.filename with
  | none => (Except.ok (), disk)
  | some _ =>
    if failAt = some 0 then (Except.error "io", disk)
    else
      let r := writeAll (saveWrites d) "" 1 failAt
      (r.1, some r.2)

/-- `Document::open` over an explicit read outcome: on success the rows are
replaced by the file's lines (pre-segmented into grapheme clusters by the
external segmentation), the cursor reset and the filename set; on failure
the `?` operator propagates the error before any field is assigned, so the
document is unchanged (the component level keeps the old state). -/
def Document.openF (_d : Document) (filename : String)
    (res : Except String (List (List String))) : Except String Document :=
  match res with
  | Except.error e => Except.error e
  | Except.ok lns =>
    Except.ok { rows := lns.map rowOfGraphemes, cursor := ⟨0, 0⟩,
                filename := some filename }

/-- `terminal.rs::Event`: the event vocabulary produced by the key decoder
and the signal bridge (`Open`/`End` are renamed to avoid Lean keywords). -/
inductive Event where
  | input : String → Event
  | up | down | left | right
  | pageUp | pageDown
  | home | endKey
  | tab | delete | backspace | escape | enter
  | next | prev | new | openEv | close
  | nothing
  | pause | resume | exit
  | find | save
  | resize : Nat → Nat → Event
  | error : String → Event
deriving DecidableEq, Repr

/-- `terminal.rs::process_keypress`, single-byte classification: the
decoding of one input byte that is not the start of an escape sequence
(`0x1b`, for which the decoder reads further bytes, modelled as `none`).
`ctrl(k) = k & 0x1f`. -/
def processKeypressByte (b : Fin 256) : Option Event :=
  if b.val = 0x1b then none
  else if b.val = 19 then some Event.save
  else if b.val = 6 then some Event.find
  else if b.val = 17 then some Event.exit
  else if b.val = 26 then some Event.pause
  else if b.val = 14 then some Event.next
  else if b.val = 16 then some Event.prev
  else if b.val = 20 then some Event.new
  else if b.val = 15 then some Event.openEv
  else if b.val = 23 then some Event.close
  else if b.val = 13 then some Event.enter
  else if b.val = 8 ∨ b.val = 127 then some Event.backspace
  else if b.val = 9 then some Event.tab
  else if 31 < b.val ∧ b.val < 127 then
    some (Event.input (Char.ofNat b.val).toString)
  else some Event.nothing

/-- Checker for the decoder classification: an `Input` event must carry a
one-byte string and come from a printable-ASCII byte; every other outcome
is unconstrained. -/
def inputPayloadOk (o : Option Event) (b : Fin 256) : Bool :=
  match o with
  | some (Event.input s) =>
    (s.utf8ByteSize == 1) && decide (32 ≤ b.val) && decide (b.val ≤ 126)
  | _ => true

/-- `ui/mod.rs::Window`: one rendered frame — styled lines plus a visible
cursor in terminal cells. -/
structure Window where
  lines : List String
  cursor : Cursor
deriving DecidableEq, Repr

/-- Result of a `Component::update` call.  `crash` models a Rust panic;
`err e s` models an `Err` return, carrying the state as already mutated
when the `?` operator fired; `ok dirty s` models `Ok(dirty)`.
`tabs.rs` and `text_area.rs` in this revision return `io::Result<()>`
where the `Component` trait declares `io::Result<bool>`; their `Ok(())`
is modelled as `ok true` (they never report `false`). -/
inductive Outcome (σ : Type) where
  | crash : Outcome σ
  | err : String → σ → Outcome σ
  | ok : Bool → σ → Outcome σ
deriving DecidableEq, Repr

/-- The I/O outcomes the component stack can hit: the result of reading a
named file (content pre-segmented into lines of grapheme clusters), and
the index of the first failing operation of a `save()` call. -/
structure World where
  openResult : String → Except String (List (List String))
  saveFailAt : Option Nat

/-- `ui/text_area.rs::split`: byte-indexed hard wrap of an already
rendered line (the `TODO: support UTF-8` helper).  `line.len()` is the
byte length; the slices are byte ranges (exact for the ASCII content this
helper is written for). -/
def taSplit (line : String) (width : Nat) : List String :=
  if width = 0 then []
  else
    ((List.range (line.utf8ByteSize / width)).map
      (fun i => line.extract ⟨i * width⟩ ⟨i * width + width⟩)) ++
    [line.extract ⟨line.utf8ByteSize - line.utf8ByteSize % width⟩
      ⟨line.utf8ByteSize⟩]

/-- `ui/text_area.rs::TextArea`: a document plus the first visible line of
the wrapped sequence. -/
structure TextAreaState where
  document : Document
  window_offset : Nat
deriving DecidableEq, Repr

/-- `TextArea::new(Document::blank())`: the blank text area created by
`Tabs` for `New` events. -/
def blankTextArea : TextAreaState := ⟨Document.blank, 0⟩

/-- The row loop of `TextArea::render` (`text_area.rs` lines 128–137):
for each row, wrap it with `taSplit`; on the cursor's row record the
window cursor as `(x mod width, lines.len() + x div width)` using the
*cell index* `x`, then extend the flat line list. -/
def renderLines (rows : List Row) (i : Nat) (lines : List String)
    (cur : Cursor) (cy cx width : Nat) : List String × Cursor :=
  match rows with
  | [] => (lines, cur)
  | r :: rest =>
    let split_lines := taSplit r.as_string width
    let cur' := if i = cy then ⟨cx % width, lines.length + cx / width⟩ else cur
    renderLines rest (i + 1) (lines ++ split_lines) cur' cy cx width

/-- `TextArea::render`: wrap all rows, place the window cursor, scroll the
window offset to reveal it, slice out `height` visible lines padding with
`"~"`, and style the first line.  `none` models the panics of the source:
`height = 0` underflows `height - 1` and then indexes `visible_lines[0]`
out of bounds, and a window offset beyond the line list makes the slice
`lines[window_offset..last_line]` panic. -/
def TextAreaState.render (ta : TextAreaState) (width height : Nat) :
    Option (Window × TextAreaState) :=
  if width = 0 then some (⟨[], ⟨0, 0⟩⟩, ta)
  else if height = 0 then none
  else
    let d := ta.document
    let lc := renderLines d.rows 0 [] ⟨0, 0⟩ d.cursor.y d.cursor.x width
    let lines := lc.1
    let cur := lc.2
    let wo1 := if cur.y < ta.window_offset then cur.y else ta.window_offset
    let wo2 := if cur.y > wo1 + height - 1 then cur.y - height + 1 else wo1
    let cy := cur.y - wo2
    let last_line := min (wo2 + height) lines.length
    if wo2 ≤ last_line then
      let visible := (lines.drop wo2).take (last_line - wo2)
        ++ List.replicate (wo2 + height - last_line) "~"
      match visible with
      | [] => none
      | v :: rest =>
        some (⟨styled defaultStyle v :: rest, ⟨cur.x, cy⟩⟩,
          { ta with window_offset := wo2 })
    else none

/-- `TextArea::up(width)`: move up one *visual* line — either subtract
`width` from the cell index, or move to the last visual line of the
previous row.  (For `width = 0` the first branch always applies, so the
division in the second branch is never reached.) -/
def TextAreaState.up (ta : TextAreaState) (width : Nat) : TextAreaState :=
  if ta.document.cursor.x ≥ width then
    { ta with document := { ta.document with
        cursor := ⟨ta.document.cursor.x - width, ta.document.cursor.y⟩ } }
  else
    let d := ta.document.up
    { ta with document := { d with
        cursor := ⟨d.cursor.x + d.current_line_len / width * width,
          d.cursor.y⟩ } }

/-- `TextArea::down(width)`: symmetric visual-line motion.  `none` models
the `x % width` division-by-zero panic when `width = 0` reaches the else
branch. -/
def TextAreaState.down (ta : TextAreaState) (width : Nat) :
    Option TextAreaState :=
  if ta.document.rows.length = 0 then some ta
  else if ta.document.cursor.x + width < ta.document.current_line_len then
    some { ta with document := { ta.document with
      cursor := ⟨ta.document.cursor.x + width, ta.document.cursor.y⟩ } }
  else if width = 0 then none
  else
    let d := { ta.document with
      cursor := ⟨ta.document.cursor.x % width, ta.document.cursor.y⟩ }
    some { ta with document := d.down }

/-- `TextArea::update`: apply the editing event to the document; all other
events fall through to `_ => {}`.  Every arm ends in `Ok(())`, modelled as
`ok true`; `crash` models the panics of `insert` (failed assertion) and
`down` (division by zero). -/
def TextAreaState.update (e : Event) (width : Nat) (ta : TextAreaState) :
    Outcome TextAreaState :=
  match e with
  | Event.input c =>
    match ta.document.insert c with
    | none => Outcome.crash
    | some d => Outcome.ok true { ta with document := d }
  | Event.up => Outcome.ok true (ta.up width)
  | Event.down =>
    match ta.down width with
    | none => Outcome.crash
    | some ta' => Outcome.ok true ta'
  | Event.left => Outcome.ok true { ta with document := ta.document.left }
  | Event.right => Outcome.ok true { ta with document := ta.document.right }
  | Event.home =>
    Outcome.ok true { ta with document := ta.document.start_of_line }
  | Event.endKey =>
    Outcome.ok true { ta with document := ta.document.end_of_line }
  | Event.tab =>
    match ta.document.tab with
    | none => Outcome.crash
    | some d => Outcome.ok true { ta with document := d }
  | Event.delete =>
    Outcome.ok true { ta with document := ta.document.delete_next }
  | Event.backspace =>
    Outcome.ok true { ta with document := ta.document.delete_prev }
  | Event.enter =>
    Outcome.ok true { ta with document := ta.document.insert_line }
  | _ => Outcome.ok true ta

/-- `ui/tabs.rs::Tabs`: an ordered sequence of child components (in the
running editor always `TextArea`s) and the selected index. -/
structure TabsState where
  children : List TextAreaState
  selected : Nat
deriving DecidableEq, Repr

/-- `Tabs::update`.  `Next`/`Prev` rotate `selected`; `New` inserts a
blank text area after `selected` and selects it; `Close` removes
`children[selected]` and recomputes
`selected = (selected + children.len() - 1) % children.len()` against the
*new* length — removing the sole child makes that `… % 0`, a panic
(`crash`); other events go to `children[selected]`, whose dirty flag is
discarded (`Ok(())`).  `crash` also models the `unwrap`/index panics when
`selected` is out of range. -/
def TabsState.update (e : Event) (width : Nat) (s : TabsState) :
    Outcome TabsState :=
  match e with
  | Event.next =>
    if s.children.length = 0 then Outcome.crash
    else Outcome.ok true
      { s with selected := (s.selected + 1) % s.children.length }
  | Event.prev =>
    if s.children.length = 0 then Outcome.crash
    else Outcome.ok true
      { s with selected :=
          (s.selected + s.children.length - 1) % s.children.length }
  | Event.new =>
    if s.selected + 1 ≤ s.children.length then
      Outcome.ok true
        ⟨s.children.take (s.selected + 1) ++ [blankTextArea]
          ++ s.children.drop (s.selected + 1), s.selected + 1⟩
    else Outcome.crash
  | Event.close =>
    if s.selected < s.children.length then
      let children := s.children.eraseIdx s.selected
      if children.length = 0 then Outcome.crash
      else Outcome.ok true
        ⟨children, (s.selected + children.length - 1) % children.length⟩
    else Outcome.crash
  | _ =>
    if s.selected < s.children.length then
      match (s.children.getD s.selected blankTextArea).update e width with
      | Outcome.crash => Outcome.crash
      | Outcome.err msg ta' =>
        Outcome.err msg { s with children := s.children.set s.selected ta' }
      | Outcome.ok _ ta' =>
        Outcome.ok true { s with children := s.children.set s.selected ta' }
    else Outcome.crash

/-- `Tabs::document` (via `current_child().document()`): mutate the
selected child's document; `none` models the `unwrap` panic when
`selected` is out of range. -/
def TabsState.docModify (s : TabsState) (f : Document → Document) :
    Option TabsState :=
  if s.selected < s.children.length then
    let ta := s.children.getD s.selected blankTextArea
    some { s with children :=
      s.children.set s.selected { ta with document := f ta.document } }
  else none

/-- The selected child's document, as read by `document()`. -/
def TabsState.doc (s : TabsState) : Option Document :=
  if s.selected < s.children.length then
    some (s.children.getD s.selected blankTextArea).document
  else none

/-- `ui/find.rs::Find`: the optional search string over a `Tabs` child. -/
structure FindState where
  child : TabsState
  search : Option String
deriving DecidableEq, Repr

/-- `Find::update`: a `Find` event opens the prompt; while the prompt is
open, `Input` extends the search, `Enter` runs `find_next` on a nonempty
search, `Escape` closes the prompt, and every other event is consumed
with `Ok(false)`; with the prompt closed, events are forwarded. -/
def FindState.update (e : Event) (width : Nat) (s : FindState) :
    Outcome FindState :=
  if e = Event.find then Outcome.ok true { s with search := some "" }
  else
    match s.search with
    | some str =>
      match e with
      | Event.input c => Outcome.ok true { s with search := some (str ++ c) }
      | Event.enter =>
        if str.utf8ByteSize ≠ 0 then
          match s.child.docModify (fun d => d.find_next str) with
          | none => Outcome.crash
          | some child' => Outcome.ok true { s with child := child' }
        else Outcome.ok true s
      | Event.escape => Outcome.ok true { s with search := none }
      | _ => Outcome.ok false s
    | none =>
      match s.child.update e width with
      | Outcome.crash => Outcome.crash
      | Outcome.err msg c' => Outcome.err msg { s with child := c' }
      | Outcome.ok d c' => Outcome.ok d { s with child := c' }

/-- `ui/file_chooser.rs::Selection`. -/
inductive Selection where
  | openSel : String → Selection
  | saveSel : String → Selection
deriving DecidableEq, Repr

/-- `file_chooser.rs::extend_selection`. -/
def extend_selection (selection : Selection) (value : String) : Selection :=
  match selection with
  | Selection.openSel s => Selection.openSel (s ++ value)
  | Selection.saveSel s => Selection.saveSel (s ++ value)

/-- `file_chooser.rs::get_selection`. -/
def get_selection (selection : Selection) : String :=
  match selection with
  | Selection.openSel s => s
  | Selection.saveSel s => s

/-- `ui/file_chooser.rs::FileChooser`: the optional open/save prompt over
a `Find` child. -/
structure FileChooserState where
  child : FindState
  selection : Option Selection
deriving DecidableEq, Repr

/-- `Find::document` = `Tabs::document`. -/
def FindState.docModifyE (s : FindState)
    (f : Document → Except String Document) :
    Option (Except String FindState) :=
  if s.child.selected < s.child.children.length then
    let ta := s.child.children.getD s.child.selected blankTextArea
    some (match f ta.document with
           | Except.error e => Except.error e
           | Except.ok d =>
             let children' :=
               s.child.children.set s.child.selected { ta with document := d }
             Except.ok { s with child := { s.child with children := children' } })
  else none

/-- `FileChooser::update`.  With a selection open: `Input` extends the
partial filename; `Enter` on a nonempty name performs the action — for
`Open` first a `New` event is sent to the child (its dirty flag becomes
the return value) and then `document().open(name)?` runs, for `Save` the
filename is set and `save()?` runs — and only on success is the selection
cleared; `Escape` cancels; anything else is consumed with `Ok(false)`.
With no selection: `Open` and `Save` open prompts (`Save` with a known
filename saves immediately), everything else is forwarded. -/
def FileChooserState.update (e : Event) (width : Nat) (world : World)
    (s : FileChooserState) : Outcome FileChooserState :=
  match s.selection with
  | some selection =>
    match e with
    | Event.input c =>
      Outcome.ok true { s with selection := some (extend_selection selection c) }
    | Event.enter =>
      let filename := get_selection selection
      if filename.utf8ByteSize ≠ 0 then
        match selection with
        | Selection.openSel _ =>
          match s.child.update Event.new width with
          | Outcome.crash => Outcome.crash
          | Outcome.err msg c' => Outcome.err msg { s with child := c' }
          | Outcome.ok dirty c' =>
            match FindState.docModifyE c'
              (fun d => d.openF filename (world.openResult filename)) with
            | none => Outcome.crash
            | some (Except.error msg) =>
              Outcome.err msg { s with child := c' }
            | some (Except.ok c'') =>
              Outcome.ok dirty { child := c'', selection := none }
        | Selection.saveSel _ =>
          match FindState.docModifyE s.child
            (fun d => Except.ok (d.set_filename filename)) with
          | none => Outcome.crash
          | some (Except.error _) => Outcome.crash
          | some (Except.ok cSet) =>
            match ((cSet.child.children.getD cSet.child.selected
                blankTextArea).document.save none world.saveFailAt).1 with
            | Except.error msg => Outcome.err msg { s with child := cSet }
            | Except.ok _ => Outcome.ok true { child := cSet, selection := none }
      else Outcome.ok true s
    | Event.escape => Outcome.ok true { s with selection := none }
    | _ => Outcome.ok false s
  | none =>
    match e with
    | Event.openEv =>
      Outcome.ok true { s with selection := some (Selection.openSel "") }
    | Event.save =>
      if s.child.child.selected < s.child.child.children.length then
        let d := (s.child.child.children.getD s.child.child.selected
          blankTextArea).document
        match d.filename with
        | some _ =>
          match (d.save none world.saveFailAt).1 with
          | Except.error msg => Outcome.err msg s
          | Except.ok _ => Outcome.ok true s
        | none =>
          Outcome.ok true { s with selection := some (Selection.saveSel "") }
      else Outcome.crash
    | _ =>
      match s.child.update e width with
      | Outcome.crash => Outcome.crash
      | Outcome.err msg c' => Outcome.err msg { s with child := c' }
      | Outcome.ok dirty c' => Outcome.ok dirty { s with child := c' }

/-- `ui/status.rs::Status`: the optional error banner over a `FileChooser`
child. -/
structure StatusState where
  child : FileChooserState
  error : Option String
deriving DecidableEq, Repr

/-- `Status::update`: an `Error(msg)` event records the message first;
while an error is showing only `Escape` (which clears it) is processed and
everything returns `Ok(false)`; otherwise the event goes to the child, a
child `Err` is captured into the banner with `Ok(false)`, and a child
`Ok` result is passed through. -/
def StatusState.update (e : Event) (width : Nat) (world : World)
    (s : StatusState) : Outcome StatusState :=
  let s0 := match e with
    | Event.error msg => { s with error := some msg }
    | _ => s
  match s0.error with
  | some _ =>
    match e with
    | Event.escape => Outcome.ok false { s0 with error := none }
    | _ => Outcome.ok false s0
  | none =>
    match s0.child.update e width world with
    | Outcome.crash => Outcome.crash
    | Outcome.err msg c' =>
      Outcome.ok false { child := c', error := some msg }
    | Outcome.ok dirty c' => Outcome.ok dirty { s0 with child := c' }

/-- Number of wrapped display lines contributed by a list of rows in
`TextArea::render` (each row yields `taSplit` of its string). -/
def wrappedLen (rows : List Row) (width : Nat) : Nat :=
  (rows.map (fun r => (taSplit r.as_string width).length)).sum

/-- Concatenation of a list of write payloads, front to back. -/
def joinAll (ws : List String) : String :=
  match ws with
  | [] => ""
  | w :: t => w ++ joinAll t

/-- A world in which every file read succeeds with empty content and
every write succeeds. -/
def emptyWorld : World := ⟨fun _ => Except.ok [], none⟩

/-- A world in which every file read fails and the first `write_all` of a
save fails. -/
def failWorld : World := ⟨fun _ => Except.error "nofile", some 1⟩

/-- The startup `Tabs` state: one blank text area, selected. -/
def blankTabs : TabsState := ⟨[blankTextArea], 0⟩

/-- The startup `Find` state. -/
def blankFind : FindState := ⟨blankTabs, none⟩

/-- The startup `FileChooser` state. -/
def blankFileChooser : FileChooserState := ⟨blankFind, none⟩

/-! ## Theorems -/

-- Width bookkeeping for the soft-wrap loop.

theorem cellsWidth_nil : cellsWidth [] = 0 := rfl

theorem cellsWidth_concat (l : List Cell) (c : Cell) :
    cellsWidth (l ++ [c]) = cellsWidth l + c.width := by
  simp [cellsWidth]

theorem cellsWidth_dropLast_le (l : List Cell) :
    cellsWidth l.dropLast ≤ cellsWidth l := by
  rcases List.eq_nil_or_concat l with h | ⟨L, b, h⟩
  · simp [h]
  · subst h
    rw [List.concat_eq_append, List.dropLast_concat, cellsWidth_concat]
    exact Nat.le_add_right _ _

-- The sealing invariant of `splitCellsGo`: the tracked `width` is the
-- accumulated width of the in-progress line and stays below `maxW`; each
-- sealed line consists of a below-`maxW` prefix plus the overflowing
-- cell, so its width is at least `maxW`; the final line stays below
-- `maxW`.
theorem splitCellsGo_spec (maxW : Nat) (hm : 1 ≤ maxW) :
    ∀ (cs line : List Cell) (width : Nat) (acc : List (List Cell)),
      cellsWidth line = width → width < maxW →
      (∀ l ∈ acc, cellsWidth l.dropLast < maxW ∧ maxW ≤ cellsWidth l) →
      1 ≤ (splitCellsGo cs line width maxW acc).length ∧
      (∀ l ∈ splitCellsGo cs line width maxW acc,
        cellsWidth l.dropLast < maxW) ∧
      (∀ l ∈ (splitCellsGo cs line width maxW acc).dropLast,
        maxW ≤ cellsWidth l) ∧
      (∀ l, (splitCellsGo cs line width maxW acc).getLast? = some l →
        cellsWidth l < maxW) := by
  intro cs
  induction cs with
  | nil =>
    intro line width acc hlw hwm hacc
    simp only [splitCellsGo]
    refine ⟨by simp, ?_, ?_, ?_⟩
    · intro l hl
      rcases List.mem_append.mp hl with h | h
      · exact (hacc l h).1
      · rw [List.mem_singleton.mp h]
        exact Nat.lt_of_le_of_lt (hlw ▸ cellsWidth_dropLast_le line) hwm
    · intro l hl
      rw [List.dropLast_concat] at hl
      exact (hacc l hl).2
    · intro l hl
      rw [List.getLast?_concat] at hl
      rw [← Option.some_inj.mp hl]
      exact hlw ▸ hwm
  | cons c rest ih =>
    intro line width acc hlw hwm hacc
    simp only [splitCellsGo]
    by_cases h : width + c.width < maxW
    · rw [if_pos h]
      exact ih (line ++ [c]) (width + c.width) acc
        (by rw [cellsWidth_concat, hlw]) h hacc
    · rw [if_neg h]
      refine ih [] 0 (acc ++ [line ++ [c]]) rfl hm ?_
      intro l hl
      rcases List.mem_append.mp hl with h' | h'
      · exact hacc l h'
      · rw [List.mem_singleton.mp h']
        constructor
        · rw [List.dropLast_concat]
          exact hlw ▸ hwm
        · rw [cellsWidth_concat, hlw]
          exact Nat.le_of_not_lt h
-- The string-building loop of `Row::split` and its cells-per-line view
-- seal lines at the same points, so they produce the same number of
-- lines.
theorem splitGo_length_eq (maxW : Nat) (endPad : String) :
    ∀ (cs : List Cell) (line : String) (width : Nat) (style : Style)
      (lineC : List Cell) (acc : List String) (accC : List (List Cell)),
      acc.length = accC.length →
      (splitGo cs line width style maxW endPad acc).length
        = (splitCellsGo cs lineC width maxW accC).length := by
  intro cs
  induction cs with
  | nil =>
    intro line width style lineC acc accC hlen
    simp [splitGo, splitCellsGo, hlen]
  | cons c rest ih =>
    intro line width style lineC acc accC hlen
    simp only [splitGo, splitCellsGo]
    by_cases h : width + c.width < maxW
    · rw [if_pos h, if_pos h]
      exact ih _ _ _ _ _ _ hlen
    · rw [if_neg h, if_neg h]
      exact ih _ _ _ _ _ _ (by simp [hlen])

/-- **C2, counterexample.**  The claim says every line produced by
`Row::split` has accumulated cell display width strictly below `cols`.
The source appends the overflowing cell to the line *before* sealing it,
so for the one-cell row `"a"` and `cols = 1` the first emitted line is
the cell itself, of width `1`, which is not `< 1`. -/
theorem c2_split_counterexample :
    ¬ (∀ l ∈ Row.splitCells ⟨[⟨"a", 1, defaultStyle⟩]⟩ 1,
        cellsWidth l < 1) := by
  decide

/-- **C2, amended.**  For `cols ≥ 1`, `Row::split` always emits at least
one line; each emitted line has width `< cols` once its final cell is
dropped (the overflowing cell ends the line it overflowed rather than
starting the next one); every non-final line has width `≥ cols`; and the
final line has width `< cols`.  The first two conjuncts tie the styled
string output to the cells-per-line view. -/
theorem c2_split_amended (r : Row) (cols : Nat) (endPad : String)
    (h : 1 ≤ cols) :
    1 ≤ (r.split cols endPad).length ∧
    (r.split cols endPad).length = (r.splitCells cols).length ∧
    (∀ l ∈ r.splitCells cols, cellsWidth l.dropLast < cols) ∧
    (∀ l ∈ (r.splitCells cols).dropLast, cols ≤ cellsWidth l) ∧
    (∀ l, (r.splitCells cols).getLast? = some l → cellsWidth l < cols) := by
  have hspec := splitCellsGo_spec cols h r.cells [] 0 [] rfl h (by simp)
  have hlen := splitGo_length_eq cols endPad r.cells
    (styled defaultStyle "") 0 defaultStyle [] [] [] rfl
  exact ⟨hlen ▸ hspec.1, hlen, hspec.2.1, hspec.2.2.1, hspec.2.2.2⟩

/-- **C2, witness.**  The amended statement at the ten-cell row
`"aaaaaaaaaa"` and `cols = 4` (the soft-wrap scenario of the spec). -/
theorem c2_split_witness :
    1 ≤ ((cells "aaaaaaaaaa").split 4 "").length ∧
    (∀ l ∈ (cells "aaaaaaaaaa").splitCells 4, cellsWidth l.dropLast < 4) :=
  ⟨(c2_split_amended (cells "aaaaaaaaaa") 4 "" (by decide)).1,
   (c2_split_amended (cells "aaaaaaaaaa") 4 "" (by decide)).2.2.1⟩

/-- **C3.**  `Row::match_indices` iterates `i` over
`0..(cells.len() - pattern_graphemes.len())`, an *exclusive* bound, so a
match that ends at the last cell of the row is never reported: searching
`"foo"` in the row `"foo"` (claimed index `[0]`) and in `"barfoo"`
(claimed index `[3]`) returns nothing, while the interior match in
`"fooqux"` is found. -/
theorem c3_match_indices_eval :
    Row.match_indices (cells "foo") "foo" = [] ∧
    Row.match_indices (cells "barfoo") "foo" = [] ∧
    Row.match_indices (cells "fooqux") "foo" = [0] := by
  decide

/-- **C4.**  The end-to-end find scenario S4: in the file
`["foo", "barfoo", "fooqux"]` with the cursor at row 2, column 4, the
only match the code's `match_indices` reports is `(0, 2)` (the matches
ending at the last cells of rows 0 and 1 are missed, see `C3`), so
`find_next("foo")` wraps to row 2, column 0 — not to `(0, 0)` as the
claim states. -/
theorem c4_find_next_eval :
    (Document.find_next
      ⟨[cells "foo", cells "barfoo", cells "fooqux"], ⟨4, 2⟩, none⟩
      "foo").cursor = ⟨0, 2⟩ := by
  decide

/-- **C1.**  From the blank document the single operation `down()`
already violates the cursor invariant: `on_last_line` computes
`rows.len() - 1 = 0 - 1`, which wraps to `2^64 - 1` in a release build
(a debug build panics), so the guard fails and the cursor moves to
`y = 1` on a document with no rows, falsifying
`y < max(1, rows.len())`. -/
theorem c1_down_empty_eval :
    (Document.down Document.blank).rows = [] ∧
    (Document.down Document.blank).cursor.y = 1 ∧
    ¬ ((Document.down Document.blank).cursor.y
        < max 1 (Document.down Document.blank).rows.length) := by
  decide

/-- **C5, counterexample.**  Closing the sole remaining tab does not
leave one blank `TextArea`: `Tabs::update` removes the child and then
evaluates `(selected + children.len() - 1) % children.len()` against the
new length `0`, a division by zero — the editor panics and no successor
state exists at all. -/
theorem c5_close_counterexample :
    TabsState.update Event.close 80 ⟨[blankTextArea], 0⟩ = Outcome.crash ∧
    ¬ ∃ dirty s', TabsState.update Event.close 80 ⟨[blankTextArea], 0⟩
        = Outcome.ok dirty s' := by
  refine ⟨rfl, ?_⟩
  rintro ⟨dirty, s', h⟩
  rw [show TabsState.update Event.close 80 ⟨[blankTextArea], 0⟩
      = Outcome.crash from rfl] at h
  exact Outcome.noConfusion h

/-- **C5, amended.**  With at least two tabs (and a valid `selected`),
`Close` removes the selected tab and re-establishes the invariants
`children.len() ≥ 1` and `selected < children.len()`; closing the sole
remaining tab instead panics on `% 0` (see the counterexample). -/
theorem c5_close_amended (s : TabsState) (h2 : 2 ≤ s.children.length)
    (hsel : s.selected < s.children.length) (w : Nat) :
    ∃ s', TabsState.update Event.close w s = Outcome.ok true s' ∧
      1 ≤ s'.children.length ∧ s'.selected < s'.children.length := by
  have hlen : (s.children.eraseIdx s.selected).length
      = s.children.length - 1 := by
    rw [List.length_eraseIdx]
    simp [hsel]
  have hpos : 0 < (s.children.eraseIdx s.selected).length := by
    omega
  refine ⟨⟨s.children.eraseIdx s.selected,
    (s.selected + (s.children.eraseIdx s.selected).length - 1)
      % (s.children.eraseIdx s.selected).length⟩, ?_, ?_, ?_⟩
  · simp only [TabsState.update]
    rw [if_pos hsel, if_neg (Nat.pos_iff_ne_zero.mp hpos)]
  · exact hpos
  · exact Nat.mod_lt _ hpos

/-- **C5, witness.**  The amended statement at a two-tab state. -/
theorem c5_close_witness :
    ∃ s', TabsState.update Event.close 80 ⟨[blankTextArea, blankTextArea], 0⟩
        = Outcome.ok true s' ∧
      1 ≤ s'.children.length ∧ s'.selected < s'.children.length :=
  c5_close_amended ⟨[blankTextArea, blankTextArea], 0⟩ (by decide) (by decide) 80

-- Decoder classification: every `Input` event the single-byte decoder
-- produces carries a one-byte printable-ASCII string.
set_option maxRecDepth 4096 in
theorem processKeypressByte_input_spec (b : Fin 256) :
    inputPayloadOk (processKeypressByte b) b = true := by
  revert b
  decide

/-- **C10.**  `Document::insert` asserts that its argument has UTF-8 byte
length exactly 1, so it panics on every multi-byte grapheme; the built-in
key decoder produces `Input` events only for bytes `0x20..=0x7E`, whose
payload is a one-byte string, and on any document satisfying the cursor
invariant such an insert succeeds — the assertion never fires for
decoder-produced input. -/
theorem c10_insert_assert :
    (∀ (c : String) (d : Document), c.utf8ByteSize ≠ 1 →
      Document.insert c d = none) ∧
    (∀ (b : Fin 256) (s : String),
      processKeypressByte b = some (Event.input s) →
      s.utf8ByteSize = 1 ∧ 32 ≤ b.val ∧ b.val ≤ 126) ∧
    (∀ (c : String) (d : Document), DocInv d → c.utf8ByteSize = 1 →
      (Document.insert c d).isSome) := by
  refine ⟨?_, ?_, ?_⟩
  · intro c d h
    simp only [Document.insert]
    rw [if_neg h]
  · intro b s h
    have h2 := processKeypressByte_input_spec b
    rw [h] at h2
    simp only [inputPayloadOk, Bool.and_eq_true, beq_iff_eq,
      decide_eq_true_eq] at h2
    exact ⟨h2.1.1, h2.1.2, h2.2⟩
  · intro c d hinv h
    simp only [Document.insert]
    rw [if_pos h]
    by_cases hr : d.rows.length = 0
    · rw [if_pos hr]
      have : d.cursor.y = 0 := (hinv.1 (List.length_eq_zero.mp hr)).2
      rw [if_pos (by simp [this, List.length_eq_zero.mp hr])]
      rfl
    · rw [if_neg hr]
      have : d.cursor.y < d.rows.length :=
        (hinv.2 (fun he => hr (by rw [he]; rfl))).1
      rw [if_pos this]
      rfl

/-- **C10, witness.**  The assertion fires on the two-byte grapheme `"α"`
and passes on the decoder-produced one-byte `"x"`. -/
theorem c10_insert_assert_witness :
    Document.insert "α" Document.blank = none ∧
    (Document.insert "x" Document.blank).isSome :=
  ⟨c10_insert_assert.1 "α" Document.blank (by decide),
   c10_insert_assert.2.2 "x" Document.blank (by decide) (by decide)⟩

-- List bookkeeping for the insert/delete round trip.

theorem getD_set_self {α : Type} (l : List α) (n : Nat) (v d : α)
    (h : n < l.length) : (l.set n v).getD n d = v := by
  simp [List.getD, List.getElem?_set_self', h]

theorem set_getD_self {α : Type} (l : List α) (n : Nat) (d : α)
    (h : n < l.length) : l.set n (l.getD n d) = l := by
  apply List.ext_getElem?
  intro i
  by_cases hi : i = n
  · subst hi
    rw [List.getElem?_set_self']
    simp [List.getD, List.getElem?_eq_getElem h]
  · rw [List.getElem?_set_ne (by omega)]

theorem getD_append_cons_self {α : Type} (A : List α) (a : α) (rest : List α)
    (d : α) : (A ++ a :: rest).getD A.length d = a := by
  induction A with
  | nil => rfl
  | cons hd tl ih => simp only [List.cons_append, List.length_cons]; exact ih

theorem getD_append_cons_succ {α : Type} (A : List α) (a b : α)
    (rest : List α) (d : α) :
    (A ++ a :: b :: rest).getD (A.length + 1) d = b := by
  induction A with
  | nil => rfl
  | cons hd tl ih => simpa using ih

theorem set_append_cons_self {α : Type} (A : List α) (a v : α)
    (rest : List α) : (A ++ a :: rest).set A.length v = A ++ v :: rest := by
  induction A with
  | nil => rfl
  | cons hd tl ih => simp only [List.cons_append, List.length_cons,
      List.set_cons_succ, ih]

theorem eraseIdx_append_cons_succ {α : Type} (A : List α) (a b : α)
    (rest : List α) :
    (A ++ a :: b :: rest).eraseIdx (A.length + 1) = A ++ a :: rest := by
  induction A with
  | nil => rfl
  | cons hd tl ih => simpa using ih

-- A string whose UTF-8 byte length is 1 is a single character, so the
-- segmentation used by `Document::insert` yields exactly one cell.
theorem data_of_byte (c : String) (h : c.utf8ByteSize = 1) :
    ∃ ch : Char, c.data = [ch] := by
  rcases c with ⟨data⟩
  rw [String.utf8ByteSize_mk] at h
  match data with
  | [] => simp at h
  | [ch] => exact ⟨ch, rfl⟩
  | ch1 :: ch2 :: rest =>
    rw [String.utf8Len_cons, String.utf8Len_cons] at h
    have h1 := Char.utf8Size_pos ch1
    have h2 := Char.utf8Size_pos ch2
    omega

theorem cells_of_byte (c : String) (h : c.utf8ByteSize = 1) :
    ∃ ch : Char, (cells c).cells = [cellOfGrapheme ch.toString] := by
  obtain ⟨ch, hch⟩ := data_of_byte c h
  refine ⟨ch, ?_⟩
  simp [cells, graphemes, String.toList, hch]

/-- **C8, counterexample.**  From the blank document, `insert("a")` first
creates an (empty) row, so `insert("a"); delete_prev()` leaves a document
with one empty row — not the original blank document with zero rows. -/
theorem c8_insert_delete_counterexample :
    (Document.insert "a" Document.blank).map Document.delete_prev
      = some ⟨[⟨[]⟩], ⟨0, 0⟩, none⟩ ∧
    (Document.insert "a" Document.blank).map Document.delete_prev
      ≠ some Document.blank := by
  decide

/-- **C8, amended.**  On a document satisfying the cursor invariant that
has at least one row, `insert(c); delete_prev()` with a grapheme accepted
by the insert assertion (one UTF-8 byte) restores the document
bit-for-bit; `insert_line(); delete_prev()` restores rows and cursor on
every document satisfying the invariant, the blank one included. -/
theorem c8_insert_delete_amended :
    (∀ (d : Document) (c : String), DocInv d → d.rows ≠ [] →
      c.utf8ByteSize = 1 →
      (d.insert c).map Document.delete_prev = some d) ∧
    (∀ d : Document, DocInv d →
      d.insert_line.delete_prev.rows = d.rows ∧
      d.insert_line.delete_prev.cursor = d.cursor) := by
  constructor
  · intro d c hinv hne h1
    rcases d with ⟨rows, ⟨x, y⟩, fn⟩
    obtain ⟨hy, hx⟩ := hinv.2 hne
    simp only at hy hx
    obtain ⟨ch, hch⟩ := cells_of_byte c h1
    have hlen0 : ¬ rows.length = 0 := fun h0 => hne (List.length_eq_zero.mp h0)
    set row := rows.getD y ⟨[]⟩ with hrow
    have hxr : x ≤ row.cells.length := hx
    simp only [Document.insert]
    rw [if_pos h1]
    simp only [if_neg hlen0]
    rw [if_pos hy]
    simp only [Option.map_some']
    simp only [Document.delete_prev, Document.on_first_char,
      Document.on_first_line]
    have hc1 : ((x + 1 : Nat) == 0) = false := by simp
    simp only [hc1, Bool.false_eq_true, false_and, if_false,
      not_false_eq_true, if_true, Bool.not_eq_true]
    have hy' : y < (rows.set y (row.insert_str x c)).length := by
      rw [List.length_set]; exact hy
    rw [getD_set_self _ _ _ _ hy]
    have hkey : (row.insert_str x c).remove (x + 1 - 1) = row := by
      have hA : (row.cells.take x).length = x := by
        rw [List.length_take]; exact Nat.min_eq_left hxr
      simp only [Row.insert_str, Row.remove, Nat.add_sub_cancel, hch]
      have hE1 : ((row.cells.take x ++ [cellOfGrapheme ch.toString])
          ++ row.cells.drop x).take x = row.cells.take x := by
        rw [List.append_assoc]
        exact List.take_left' hA
      have hE2 : ((row.cells.take x ++ [cellOfGrapheme ch.toString])
          ++ row.cells.drop x).drop (x + 1) = row.cells.drop x :=
        List.drop_left' (by simp [hA])
      rw [List.eraseIdx_eq_take_drop_succ, hE1, hE2, List.take_append_drop]
    rw [hkey, List.set_set, hrow, set_getD_self _ _ _ hy]
    simp
  · intro d hinv
    rcases d with ⟨rows, ⟨x, y⟩, fn⟩
    by_cases hne : rows = []
    · subst hne
      obtain ⟨hx0, hy0⟩ := hinv.1 rfl
      simp only at hx0 hy0
      subst hx0; subst hy0
      constructor <;> rfl
    · obtain ⟨hy, hx⟩ := hinv.2 hne
      simp only at hy hx
      have hlen0 : ¬ rows.length = 0 :=
        fun h0 => hne (List.length_eq_zero.mp h0)
      set row := rows.getD y ⟨[]⟩ with hrow
      have hxr : x ≤ row.cells.length := hx
      simp only [Document.insert_line]
      simp only [if_neg hlen0]
      simp only [Document.delete_prev, Document.on_first_char,
        Document.on_first_line, Row.split_at]
      have hc1 : ((0 : Nat) == 0) = true := by simp
      have hc2 : ((y + 1 : Nat) == 0) = false := by simp
      simp only [hc1, hc2, Bool.false_eq_true, not_false_eq_true, and_true,
        true_and, if_true]
      have hA : (rows.take y).length = y := by
        rw [List.length_take]; exact Nat.min_eq_left (Nat.le_of_lt hy)
      have hass : rows.take y ++ [⟨row.cells.take x⟩, ⟨row.cells.drop x⟩]
          ++ rows.drop (y + 1)
          = rows.take y ++ (⟨row.cells.take x⟩ : Row)
            :: (⟨row.cells.drop x⟩ : Row) :: rows.drop (y + 1) := by
        simp
      rw [hass]
      have hgetPrev := getD_append_cons_succ (rows.take y)
        (⟨row.cells.take x⟩ : Row) (⟨row.cells.drop x⟩ : Row)
        (rows.drop (y + 1)) (⟨[]⟩ : Row)
      rw [hA] at hgetPrev
      rw [hgetPrev]
      have herase := eraseIdx_append_cons_succ (rows.take y)
        (⟨row.cells.take x⟩ : Row) (⟨row.cells.drop x⟩ : Row)
        (rows.drop (y + 1))
      rw [hA] at herase
      rw [herase]
      simp only [Nat.add_sub_cancel]
      have hgetFirst := getD_append_cons_self (rows.take y)
        (⟨row.cells.take x⟩ : Row) (rows.drop (y + 1)) (⟨[]⟩ : Row)
      rw [hA] at hgetFirst
      rw [hgetFirst]
      have hset0 := set_append_cons_self (rows.take y)
        (⟨row.cells.take x⟩ : Row)
        ((⟨row.cells.take x⟩ : Row).append ⟨row.cells.drop x⟩)
        (rows.drop (y + 1))
      rw [hA] at hset0
      rw [hset0]
      have hset : rows.take y ++ ((⟨row.cells.take x⟩ : Row).append
          ⟨row.cells.drop x⟩) :: rows.drop (y + 1) = rows := by
        simp only [Row.append, List.take_append_drop]
        have hdrop : rows.drop y = row :: rows.drop (y + 1) := by
          rw [List.drop_eq_getElem_cons hy]
          congr 1
          rw [hrow]
          simp [List.getD, List.getElem?_eq_getElem hy]
        calc rows.take y ++ (⟨row.cells⟩ : Row) :: rows.drop (y + 1)
            = rows.take y ++ rows.drop y := by rw [hdrop]
          _ = rows := List.take_append_drop _ _
      rw [hset]
      have hxlen : (row.cells.take x).length = x := by
        rw [List.length_take]; exact Nat.min_eq_left hxr
      constructor
      · rfl
      · simp [Row.len, hxlen]

-- `TextArea::update` ends every arm in `Ok(())`: it never reports
-- `dirty = false`.
theorem textArea_update_dirty (e : Event) (w : Nat) (ta ta' : TextAreaState)
    (dirty : Bool) (h : TextAreaState.update e w ta = Outcome.ok dirty ta') :
    dirty = true := by
  cases e <;> simp only [TextAreaState.update] at h <;>
    (try split at h) <;> (try cases h) <;> simp_all

-- `Tabs::update` likewise discards the child's dirty flag and returns
-- `Ok(())`: it never reports `dirty = false`.
theorem tabs_update_dirty (e : Event) (w : Nat) (s s' : TabsState)
    (dirty : Bool) (h : TabsState.update e w s = Outcome.ok dirty s') :
    dirty = true := by
  cases e <;> simp only [TabsState.update] at h <;>
    (try split at h) <;> (try split at h) <;> (try cases h) <;> simp_all

-- `Find::update` returns `Ok(false)` only on the consume branch of an
-- open prompt, which touches nothing.
theorem find_update_ok_false (e : Event) (w : Nat) (s s' : FindState)
    (h : FindState.update e w s = Outcome.ok false s') : s' = s := by
  simp only [FindState.update] at h
  by_cases hf : e = Event.find
  · rw [if_pos hf] at h
    cases h
  · rw [if_neg hf] at h
    cases hs : s.search with
    | some str =>
      rw [hs] at h
      cases e <;> simp only at h <;> (try split at h) <;> (try split at h) <;>
        (try cases h) <;> simp_all
    | none =>
      rw [hs] at h
      cases hu : s.child.update e w with
      | crash => rw [hu] at h; cases h
      | err msg c' => rw [hu] at h; cases h
      | ok d c' =>
        rw [hu] at h
        cases h
        exact absurd (tabs_update_dirty e w s.child c' false hu)
          (by simp)

/-- **C9, counterexample.**  `Status::update` returns `Ok(false)` after
mutating its state: with an error banner showing, `Escape` clears the
error and still reports `dirty = false` (so the stale banner is not even
redrawn). -/
theorem c9_dirty_counterexample :
    StatusState.update Event.escape 80 emptyWorld ⟨blankFileChooser, some "e"⟩
      = Outcome.ok false ⟨blankFileChooser, none⟩ ∧
    (⟨blankFileChooser, none⟩ : StatusState) ≠ ⟨blankFileChooser, some "e"⟩ :=
  ⟨rfl, by decide⟩

/-- **C9, amended.**  The dirty-propagation contract holds below the
`Status` layer: `TextArea` and `Tabs` never report `dirty = false` at
all, and `Find` reports `Ok(false)` only when it consumed the event
without touching any state.  `Status` violates the contract (it mutates
its error while returning `Ok(false)`, see the counterexample), and
`FileChooser` can propagate a child's `false` after completing an `Open`
on its `Enter` path. -/
theorem c9_dirty_amended :
    (∀ (e : Event) (w : Nat) (s s' : FindState),
      FindState.update e w s = Outcome.ok false s' → s' = s) ∧
    (∀ (e : Event) (w : Nat) (ta ta' : TextAreaState) (dirty : Bool),
      TextAreaState.update e w ta = Outcome.ok dirty ta' → dirty = true) ∧
    (∀ (e : Event) (w : Nat) (s s' : TabsState) (dirty : Bool),
      TabsState.update e w s = Outcome.ok dirty s' → dirty = true) :=
  ⟨fun e w s s' h => find_update_ok_false e w s s' h,
   fun e w ta ta' dirty h => textArea_update_dirty e w ta ta' dirty h,
   fun e w s s' dirty h => tabs_update_dirty e w s s' dirty h⟩

/-- **C9, witness.**  The amended statement at a concrete consume: an
open find prompt swallowing an `Up` key reports `false` and leaves the
state `⟨blankTabs, some ""⟩` unchanged. -/
theorem c9_dirty_witness :
    FindState.update Event.up 80 ⟨blankTabs, some ""⟩
      = Outcome.ok false ⟨blankTabs, some ""⟩ ∧
    (⟨blankTabs, some ""⟩ : FindState) = ⟨blankTabs, some ""⟩ :=
  ⟨rfl, c9_dirty_amended.1 Event.up 80 ⟨blankTabs, some ""⟩ ⟨blankTabs, some ""⟩
    rfl⟩

-- The write loop leaves exactly the successfully written prefix in the
-- file when operation `k` fails (and the whole content when `k` is past
-- the end).
theorem writeAll_content (k : Nat) :
    ∀ (ws : List String) (content : String) (i : Nat), i ≤ k →
      (writeAll ws content i (some k)).2
        = content ++ joinAll (ws.take (k - i)) := by
  intro ws
  induction ws with
  | nil =>
    intro content i hik
    simp [writeAll, joinAll, String.append_empty]
  | cons w rest ih =>
    intro content i hik
    simp only [writeAll]
    by_cases hk : (some k : Option Nat) = some i
    · rw [if_pos hk]
      have hki : k = i := by injection hk
      rw [hki]
      simp [joinAll, String.append_empty]
    · rw [if_neg hk]
      have hne : k ≠ i := fun h => hk (by rw [h])
      have hki : i + 1 ≤ k := by omega
      rw [ih (content ++ w) (i + 1) hki]
      have hsub : k - i = (k - (i + 1)) + 1 := by omega
      rw [hsub, List.take_succ_cons, joinAll, String.append_assoc]

/-- **C7, counterexample.**  A `save()` whose first `write_all` fails does
*not* leave the file in its previous on-disk state: `File::create` has
already truncated it, so the previous content `"xyz"` is replaced by the
empty string. -/
theorem c7_save_counterexample :
    Document.save ⟨[cells "ab"], ⟨0, 0⟩, some "f"⟩ (some "xyz") (some 1)
      = (Except.error "io", some "") ∧
    (some "" : Option String) ≠ some "xyz" :=
  ⟨rfl, by decide⟩

/-- **C7, amended.**  A `save()` that fails at `File::create` leaves the
on-disk content unchanged; one that fails at write operation `k ≥ 1`
leaves exactly the prefix written before the failure (the previous
content is lost to truncation); in both cases the OS error is returned as
a value.  A failed `open(name)` propagates the error before any document
field is assigned: the previously selected tab's component is unchanged
(at its old index), although the preceding `New` event has already
created and selected a fresh blank tab. -/
theorem c7_error_amended :
    (∀ (d : Document) (disk : Option String),
      (d.save disk (some 0)).2 = disk) ∧
    (∀ (d : Document) (disk : Option String) (k : Nat), 1 ≤ k →
      d.filename.isSome →
      (d.save disk (some k)).2
        = some (joinAll ((saveWrites d).take (k - 1)))) ∧
    (∀ (fc : FileChooserState) (f msg : String) (world : World) (w : Nat),
      fc.selection = some (Selection.openSel f) →
      f.utf8ByteSize ≠ 0 →
      fc.child.search = none →
      fc.child.child.selected < fc.child.child.children.length →
      world.openResult f = Except.error msg →
      ∃ tabs' : TabsState,
        FileChooserState.update Event.enter w world fc
          = Outcome.err msg ⟨⟨tabs', none⟩, some (Selection.openSel f)⟩ ∧
        tabs'.children.getD fc.child.child.selected blankTextArea
          = fc.child.child.children.getD fc.child.child.selected
              blankTextArea ∧
        tabs'.selected = fc.child.child.selected + 1 ∧
        tabs'.children.length = fc.child.child.children.length + 1) := by
  refine ⟨?_, ?_, ?_⟩
  · intro d disk
    rcases d with ⟨rows, cur, fn⟩
    cases fn <;> simp [Document.save]
  · intro d disk k hk hfn
    rcases d with ⟨rows, cur, fn⟩
    cases fn with
    | none => simp at hfn
    | some name =>
      simp only [Document.save]
      rw [if_neg (by simp; omega)]
      rw [writeAll_content k _ "" 1 hk]
      rfl
  · intro fc f msg world w hsel hf hsearch hlt hopen
    rcases fc with ⟨⟨⟨children, sel⟩, search⟩, selection⟩
    simp only at hsel hsearch hlt
    subst hsel; subst hsearch
    refine ⟨⟨children.take (sel + 1) ++ [blankTextArea]
      ++ children.drop (sel + 1), sel + 1⟩, ?_, ?_, ?_, ?_⟩
    · simp only [FileChooserState.update, get_selection]
      rw [if_pos hf]
      have hnew : FindState.update Event.new w ⟨⟨children, sel⟩, none⟩
          = Outcome.ok true ⟨⟨children.take (sel + 1) ++ [blankTextArea]
              ++ children.drop (sel + 1), sel + 1⟩, none⟩ := by
        simp only [FindState.update]
        rw [if_neg (by decide)]
        simp only [TabsState.update]
        rw [if_pos (by omega)]
      rw [hnew]
      have hlen' : (children.take (sel + 1) ++ [blankTextArea]
          ++ children.drop (sel + 1)).length = children.length + 1 := by
        simp only [List.length_append, List.length_take, List.length_drop,
          List.length_singleton]
        omega
      simp only [FindState.docModifyE]
      rw [if_pos (by rw [hlen']; omega)]
      simp only [Document.openF, hopen]
    · simp only [List.getD_eq_getElem?_getD, List.append_assoc]
      rw [List.getElem?_append, if_pos (by
        rw [List.length_take]
        omega)]
      rw [List.getElem?_take, if_pos (by omega)]
    · rfl
    · simp only [List.length_append, List.length_take, List.length_drop,
        List.length_singleton]
      omega

/-- **C7, witness.**  The amended statement at concrete inputs: a
create-failure preserves `"xyz"`; a failure at write 2 leaves the first
row's bytes; a failed open of `"f"` from the startup stack errs with the
old tab still first and a new blank tab selected. -/
theorem c7_error_witness :
    (Document.save ⟨[cells "ab"], ⟨0, 0⟩, some "f"⟩ (some "xyz")
      (some 0)).2 = some "xyz" ∧
    (Document.save ⟨[cells "ab"], ⟨0, 0⟩, some "f"⟩ (some "xyz")
      (some 2)).2
      = some (joinAll
          ((saveWrites ⟨[cells "ab"], ⟨0, 0⟩, some "f"⟩).take 1)) ∧
    ∃ tabs' : TabsState,
      FileChooserState.update Event.enter 80 failWorld
          ⟨⟨blankTabs, none⟩, some (Selection.openSel "f")⟩
        = Outcome.err "nofile" ⟨⟨tabs', none⟩, some (Selection.openSel "f")⟩ ∧
      tabs'.children.getD 0 blankTextArea
        = blankTabs.children.getD 0 blankTextArea ∧
      tabs'.selected = 1 ∧
      tabs'.children.length = 2 :=
  ⟨c7_error_amended.1 ⟨[cells "ab"], ⟨0, 0⟩, some "f"⟩ (some "xyz"),
   c7_error_amended.2.1 ⟨[cells "ab"], ⟨0, 0⟩, some "f"⟩ (some "xyz") 2
     (by decide) rfl,
   c7_error_amended.2.2 ⟨⟨blankTabs, none⟩, some (Selection.openSel "f")⟩
     "f" "nofile" failWorld 80 rfl (by decide) rfl (by decide) rfl⟩

-- Wrapped-line bookkeeping for `TextArea::render`.

theorem taSplit_length (s : String) (w : Nat) (hw : 1 ≤ w) :
    (taSplit s w).length = s.utf8ByteSize / w + 1 := by
  simp only [taSplit]
  rw [if_neg (by omega)]
  simp

theorem wrappedLen_nil (w : Nat) : wrappedLen [] w = 0 := rfl

theorem wrappedLen_cons (r : Row) (rows : List Row) (w : Nat) :
    wrappedLen (r :: rows) w
      = (taSplit r.as_string w).length + wrappedLen rows w := by
  simp [wrappedLen]

theorem wrappedLen_append (l1 l2 : List Row) (w : Nat) :
    wrappedLen (l1 ++ l2) w = wrappedLen l1 w + wrappedLen l2 w := by
  simp [wrappedLen]

theorem length_flatMap_taSplit (rows : List Row) (w : Nat) :
    (rows.flatMap (fun r => taSplit r.as_string w)).length
      = wrappedLen rows w := by
  induction rows with
  | nil => rfl
  | cons r rest ih =>
    simp only [List.flatMap_cons, List.length_append, wrappedLen_cons, ih]

-- The row loop of `TextArea::render` never touches the cursor once the
-- loop index has passed the cursor row.
theorem renderLines_snd_of_lt (cy cx w : Nat) :
    ∀ (rows : List Row) (i : Nat) (lines : List String) (cur : Cursor),
      cy < i → (renderLines rows i lines cur cy cx w).2 = cur := by
  intro rows
  induction rows with
  | nil => intro i lines cur _; rfl
  | cons r rest ih =>
    intro i lines cur hlt
    simp only [renderLines]
    rw [if_neg (by omega)]
    exact ih (i + 1) _ cur (by omega)

-- The lines the loop accumulates are the wrapped lines of all rows.
theorem renderLines_fst (cy cx w : Nat) :
    ∀ (rows : List Row) (i : Nat) (lines : List String) (cur : Cursor),
      (renderLines rows i lines cur cy cx w).1
        = lines ++ rows.flatMap (fun r => taSplit r.as_string w) := by
  intro rows
  induction rows with
  | nil => intro i lines cur; simp [renderLines]
  | cons r rest ih =>
    intro i lines cur
    simp only [renderLines, List.flatMap_cons]
    rw [ih]
    simp

-- The cursor the loop reports: `x mod w` and the number of wrapped lines
-- before the cursor row plus `x div w`.
theorem renderLines_snd (cy cx w : Nat) :
    ∀ (rows : List Row) (i : Nat) (lines : List String) (cur : Cursor),
      i ≤ cy → cy < i + rows.length →
      (renderLines rows i lines cur cy cx w).2
        = ⟨cx % w,
           lines.length + wrappedLen (rows.take (cy - i)) w + cx / w⟩ := by
  intro rows
  induction rows with
  | nil =>
    intro i lines cur hle hlt
    simp at hlt
    omega
  | cons r rest ih =>
    intro i lines cur hle hlt
    simp only [renderLines]
    by_cases hi : i = cy
    · rw [if_pos hi]
      rw [renderLines_snd_of_lt cy cx w rest (i + 1) _ _ (by omega)]
      have h0 : cy - i = 0 := by omega
      rw [h0]
      simp [wrappedLen_nil]
    · rw [if_neg hi]
      rw [ih (i + 1) (lines ++ taSplit r.as_string w) cur (by omega)
        (by simp at hlt ⊢; omega)]
      have hstep : cy - i = (cy - (i + 1)) + 1 := by omega
      rw [hstep, List.take_succ_cons, wrappedLen_cons]
      simp only [List.length_append, Cursor.mk.injEq, true_and]
      omega

/-- **C6, counterexample.**  `TextArea::render` places the window cursor
with the cell index `cursor.x`, not with `cursor_display_x()`: for a row
holding one TAB cell (display width 4) and the cursor after it, at
`cols = 8` the code reports `x = 1 % 8 = 1` while the claim demands
`cursor_display_x() mod cols = 4`. -/
theorem c6_render_counterexample :
    ((⟨⟨[⟨[⟨"\t", 4, defaultStyle⟩]⟩], ⟨1, 0⟩, none⟩, 0⟩
        : TextAreaState).render 8 3).map (fun p => p.1.cursor.x)
      = some 1 ∧
    (⟨[⟨[⟨"\t", 4, defaultStyle⟩]⟩], ⟨1, 0⟩, none⟩
        : Document).cursor_display_x % 8 = 4 ∧
    (1 : Nat) ≠ 4 :=
  ⟨rfl, rfl, by decide⟩

/-- **C6, amended.**  For `cols ≥ 1`, `rows ≥ 1`, a cursor row in range
and a cursor cell index within the row's byte length: render succeeds,
the reported window cursor `x` is `cursor.x mod cols` (the *cell index*,
not `cursor_display_x()`), and the reported `y` plus the adjusted window
offset equals the number of byte-wrapped lines of the rows before the
cursor row plus `cursor.x div cols`. -/
theorem c6_render_amended (ta : TextAreaState) (width height : Nat)
    (hw : 1 ≤ width) (hh : 1 ≤ height)
    (hy : ta.document.cursor.y < ta.document.rows.length)
    (hx : ta.document.cursor.x
      ≤ (ta.document.rows.getD ta.document.cursor.y
          ⟨[]⟩).as_string.utf8ByteSize) :
    ∃ win ta', ta.render width height = some (win, ta') ∧
      win.cursor.x = ta.document.cursor.x % width ∧
      win.cursor.y + ta'.window_offset
        = wrappedLen (ta.document.rows.take ta.document.cursor.y) width
          + ta.document.cursor.x / width := by
  obtain ⟨⟨rows, ⟨cx, cy⟩, fn⟩, wo⟩ := ta
  simp only at hy hx ⊢
  have hcur := renderLines_snd cy cx width rows 0 [] ⟨0, 0⟩ (Nat.zero_le _)
    (by omega)
  simp only [List.length_nil, Nat.zero_add, Nat.sub_zero] at hcur
  have hlen : (renderLines rows 0 [] ⟨0, 0⟩ cy cx width).1.length
      = wrappedLen rows width := by
    rw [renderLines_fst cy cx width rows 0 [] ⟨0, 0⟩, List.nil_append]
    exact length_flatMap_taSplit rows width
  have hrows : rows = rows.take cy ++ rows.getD cy ⟨[]⟩ :: rows.drop (cy + 1) := by
    conv_lhs => rw [← List.take_append_drop cy rows]
    congr 1
    rw [List.drop_eq_getElem_cons hy]
    congr 1
    simp [List.getD_eq_getElem?_getD, List.getElem?_eq_getElem hy]
  have hCYlt : wrappedLen (rows.take cy) width + cx / width
      < wrappedLen rows width := by
    conv_rhs => rw [hrows]
    rw [wrappedLen_append, wrappedLen_cons,
      taSplit_length _ _ hw]
    have hdiv : cx / width
        ≤ (rows.getD cy ⟨[]⟩).as_string.utf8ByteSize / width :=
      Nat.div_le_div_right hx
    omega
  simp only [TextAreaState.render]
  rw [if_neg (by omega), if_neg (by omega)]
  rw [hcur, hlen]
  dsimp only
  set CY := wrappedLen (rows.take cy) width + cx / width with hCYdef
  set wo1 := if CY < wo then CY else wo with hwo1def
  set wo2 := if CY > wo1 + height - 1 then CY - height + 1 else wo1
    with hwo2def
  have hwo1le : wo1 ≤ CY := by
    rw [hwo1def]
    split
    · omega
    · omega
  have hwo2le : wo2 ≤ CY := by
    rw [hwo2def]
    split
    · omega
    · exact hwo1le
  rw [if_pos (show wo2 ≤ min (wo2 + height) (wrappedLen rows width) by
    omega)]
  split
  · rename_i hnil
    have hl := congrArg List.length hnil
    simp only [List.length_append, List.length_take, List.length_drop,
      List.length_replicate, List.length_nil, hlen] at hl
    omega
  · rename_i v rest hcons
    exact ⟨_, _, rfl, rfl, by dsimp only; omega⟩

/-- **C6, witness.**  The amended statement at the one-row ASCII document
`"hello"`, cursor at cell 2, `cols = 3`, `rows = 2`. -/
theorem c6_render_witness :
    ∃ win ta',
      (⟨⟨[cells "hello"], ⟨2, 0⟩, none⟩, 0⟩ : TextAreaState).render 3 2
        = some (win, ta') ∧
      win.cursor.x = 2 % 3 ∧
      win.cursor.y + ta'.window_offset
        = wrappedLen ([cells "hello"].take 0) 3 + 2 / 3 :=
  c6_render_amended ⟨⟨[cells "hello"], ⟨2, 0⟩, none⟩, 0⟩ 3 2 (by decide)
    (by decide) (by decide) (by decide)

/-- **C8, witness.**  The amended statement at the one-row document
`"hi"` with the cursor after the first cell, inserting `"x"`. -/
theorem c8_insert_delete_witness :
    ((⟨[cells "hi"], ⟨1, 0⟩, none⟩ : Document).insert "x").map
        Document.delete_prev = some ⟨[cells "hi"], ⟨1, 0⟩, none⟩ ∧
    (⟨[cells "hi"], ⟨1, 0⟩, none⟩ : Document).insert_line.delete_prev.rows
      = [cells "hi"] :=
  ⟨c8_insert_delete_amended.1 ⟨[cells "hi"], ⟨1, 0⟩, none⟩ "x" (by decide)
      (by decide) (by decide),
   (c8_insert_delete_amended.2 ⟨[cells "hi"], ⟨1, 0⟩, none⟩ (by decide)).1⟩

end Takkun
